import Mathlib

/-!
Shallow embedding of the change-capture-and-broadcast pipeline of the
`real-time-db-updates` repository.

The embedded code:
* `src/changeListener.js` — the polling `ChangeListener` class
  (`initializeLastProcessedId`, `checkForChanges`, `processChange`,
  `safeJSONParse`, `broadcastChange`, `cleanupOldChanges`, `start`);
* `src/server.js` — the WebSocket connection handler (snapshot send and
  client registration);
* the binlog listener variant (`handleBinlogEvent`, `formatBinlogData`).

Modelling conventions:
* the `order_changes` table is a `List ChangeRecord`; SQL queries are
  translated into filters/sorts/folds over that list;
* a JSON column value is a `JSVal` (SQL NULL, an already-structured object,
  or a string); `JSON.parse` is an arbitrary parameter
  `parse : String → Option Order` (`none` = the parse throws);
* fallible store writes take an explicit failure oracle
  (`failMark : Nat → Bool` for the `UPDATE ... SET processed = 1` query,
  `failCleanup : Bool` for the retention DELETE); a thrown query error
  propagates exactly as the JavaScript control flow does (out of the
  `for` loop, caught by the `try`/`catch` of `checkForChanges`);
* `Math.random()` is an explicit rational input `rand : ℚ`.
-/

/-- Row of the `orders` table, with the exact columns the triggers and
`formatBinlogData` serialize. Timestamps are opaque strings. -/
structure Order where
  id : Nat
  customer_name : String
  product_name : String
  status : String
  updated_at : String
  created_at : String
  deriving Repr, DecidableEq

/-- Value of a JSON column (`old_data` / `new_data`) as seen by
`safeJSONParse`: SQL NULL / undefined, an already-parsed object, or a raw
string. -/
inductive JSVal where
  | jsNull
  | jsObj (o : Order)
  | jsStr (s : String)
  deriving Repr, DecidableEq

/-- Row of the `order_changes` table. `operation_type` is kept as a string
because `processChange` switches on a string with no default case. -/
structure ChangeRecord where
  id : Nat
  operation_type : String
  old_data : JSVal
  new_data : JSVal
  changed_at : String
  processed : Bool
  deriving Repr, DecidableEq

/-- Message object built by `processChange` / `handleBinlogEvent` and
broadcast to subscribers. `none` in `data` / `oldData` / `newData` /
`changeId` means the field is absent from the JS object; `some none` in the
payload fields means the field is present but `null`. -/
structure ChangeData where
  type : String
  table : String
  timestamp : String
  changeId : Option Nat
  data : Option (Option Order)
  oldData : Option (Option Order)
  newData : Option (Option Order)
  deriving Repr, DecidableEq

namespace ChangeListener

/-- Translation of `safeJSONParse(jsonString)`: falsy input (NULL or the
empty string) gives `null`; an object is returned as-is; the literal string
`"[object Object]"` is detected and gives `null`; any other string is
`JSON.parse`d, a parse exception giving `null`. -/
def safeJSONParse (parse : String → Option Order) : JSVal → Option Order
  | .jsNull => none
  | .jsObj o => some o
  | .jsStr s =>
      if s = "" then none
      else if s = "[object Object]" then none
      else parse s

/-- Translation of `processChange(change)`: builds the `changeData` object
(switch on `operation_type`, no default case), and returns it when
`changeData.data` is truthy (the record is broadcast), `none` otherwise. -/
def processChange (parse : String → Option Order) (change : ChangeRecord) :
    Option ChangeData :=
  let base : ChangeData :=
    { type := change.operation_type, table := "orders",
      timestamp := change.changed_at, changeId := some change.id,
      data := none, oldData := none, newData := none }
  let cd : ChangeData :=
    if change.operation_type = "INSERT" then
      { base with data := some (safeJSONParse parse change.new_data) }
    else if change.operation_type = "UPDATE" then
      let nd := safeJSONParse parse change.new_data
      { base with oldData := some (safeJSONParse parse change.old_data),
                  newData := some nd, data := some nd }
    else if change.operation_type = "DELETE" then
      { base with data := some (safeJSONParse parse change.old_data) }
    else base
  match cd.data with
  | some (some _) => some cd
  | _ => none

/-- Insertion step for the `ORDER BY id ASC` of the fetch query. -/
def insertById (r : ChangeRecord) : List ChangeRecord → List ChangeRecord
  | [] => [r]
  | x :: xs => if r.id ≤ x.id then r :: x :: xs else x :: insertById r xs

/-- Insertion sort by ascending `id`, modelling `ORDER BY id ASC`. -/
def sortById (l : List ChangeRecord) : List ChangeRecord :=
  l.foldr insertById []

/-- Translation of the fetch query of `checkForChanges`:
`SELECT * FROM order_changes WHERE id > ? AND processed = 0
 ORDER BY id ASC LIMIT 50` with `?` = the cursor. -/
def fetchChanges (store : List ChangeRecord) (cursor : Nat) :
    List ChangeRecord :=
  (sortById (store.filter fun r => cursor < r.id ∧ r.processed = false)).take 50

/-- Translation of `UPDATE order_changes SET processed = 1 WHERE id = ?`. -/
def markDelivered (store : List ChangeRecord) (i : Nat) : List ChangeRecord :=
  store.map fun r => if r.id = i then { r with processed := true } else r

/-- A store in which every record with the given id is marked delivered. -/
def markedInStore (store : List ChangeRecord) (i : Nat) : Prop :=
  ∀ x ∈ store, x.id = i → x.processed = true

/-- Result of running the `for (const change of changes)` loop body over a
batch: store and cursor afterwards, the events broadcast, and whether the
loop was aborted by a thrown `markDelivered` query error. -/
structure BatchResult where
  store : List ChangeRecord
  cursor : Nat
  events : List ChangeData
  aborted : Bool
  deriving Repr, DecidableEq

/-- Translation of the loop of `checkForChanges`: for each record, run
`processChange` (broadcasting when it yields an event), then assign
`lastProcessedId = change.id`, then run the mark-delivered UPDATE; if that
query throws (`failMark`), the exception aborts the loop — note the cursor
has already been advanced at that point. -/
def processBatch (parse : String → Option Order) (failMark : Nat → Bool)
    (store : List ChangeRecord) (cursor : Nat) :
    List ChangeRecord → BatchResult
  | [] => { store := store, cursor := cursor, events := [], aborted := false }
  | c :: rest =>
      let evs : List ChangeData :=
        match processChange parse c with
        | some cd => [cd]
        | none => []
      let cursor1 := c.id
      if failMark c.id then
        { store := store, cursor := cursor1, events := evs, aborted := true }
      else
        let b := processBatch parse failMark (markDelivered store c.id) cursor1 rest
        { b with events := evs ++ b.events }

/-- Insertion step for the `ORDER BY id DESC` of the cleanup subquery. -/
def insertDesc (x : Nat) : List Nat → List Nat
  | [] => [x]
  | y :: ys => if y ≤ x then x :: y :: ys else y :: insertDesc x ys

/-- Insertion sort of ids in descending order, modelling `ORDER BY id
DESC`. -/
def sortDesc (l : List Nat) : List Nat := l.foldr insertDesc []

/-- The delivered ids of a store, in descending order. -/
def deliveredIdsDesc (store : List ChangeRecord) : List Nat :=
  sortDesc ((store.filter fun r => r.processed).map ChangeRecord.id)

/-- Translation of `cleanupOldChanges()`: delete delivered records whose
`id` is below the id ranked 1001st (DESC order, `LIMIT 1 OFFSET 1000`)
among delivered records; if the subquery yields no row the comparison with
NULL deletes nothing; a query error (`failCleanup`) is caught and
ignored. -/
def cleanupOldChanges (failCleanup : Bool) (store : List ChangeRecord) :
    List ChangeRecord :=
  if failCleanup then store
  else
    match (deliveredIdsDesc store).get? 1000 with
    | none => store
    | some t => store.filter fun r => ¬(r.processed = true ∧ r.id < t)

/-- Result of one tick of the poll loop. -/
structure TickResult where
  store : List ChangeRecord
  cursor : Nat
  events : List ChangeData
  deriving Repr, DecidableEq

/-- Translation of `checkForChanges()`: fetch the batch; if empty, return;
otherwise run the loop; if it aborted, the thrown error skips the cleanup
and is caught by the outer `try`/`catch`; otherwise run `cleanupOldChanges`
when `Math.random() < 0.1`. -/
def checkForChanges (parse : String → Option Order) (failMark : Nat → Bool)
    (rand : ℚ) (failCleanup : Bool) (store : List ChangeRecord)
    (cursor : Nat) : TickResult :=
  let changes := fetchChanges store cursor
  if changes = [] then { store := store, cursor := cursor, events := [] }
  else
    let b := processBatch parse failMark store cursor changes
    if b.aborted then { store := b.store, cursor := b.cursor, events := b.events }
    else if rand < 1/10 then
      { store := cleanupOldChanges failCleanup b.store, cursor := b.cursor,
        events := b.events }
    else { store := b.store, cursor := b.cursor, events := b.events }

/-- Translation of `SELECT MAX(id) as max_id FROM order_changes WHERE
processed = 1` followed by `result[0]?.max_id || 0`. -/
def maxDeliveredId (store : List ChangeRecord) : Nat :=
  ((store.filter fun r => r.processed).map ChangeRecord.id).foldr max 0

/-- Translation of `initializeLastProcessedId()`: on a query error
(`queryFails`) the catch block logs and leaves the cursor at 0 — it does
not rethrow. -/
def initializeLastProcessedId (queryFails : Bool)
    (store : List ChangeRecord) : Nat :=
  if queryFails then 0 else maxDeliveredId store

/-- State of a `ChangeListener` instance. `intervalsCreated` counts the
`setInterval` calls made by `startPolling`, to make interval creation
observable. -/
structure Listener where
  isListening : Bool
  pollInterval : Option Nat
  lastProcessedId : Nat
  intervalsCreated : Nat
  deriving Repr, DecidableEq

/-- Listener state built by the constructor. -/
def mkListener : Listener :=
  { isListening := false, pollInterval := none, lastProcessedId := 0,
    intervalsCreated := 0 }

/-- Translation of `start()`: if already listening, return at once;
otherwise initialize the cursor (which cannot throw: its catch swallows the
query error), create the poll interval (`startPolling`), and set
`isListening`. `h` is the fresh interval handle returned by
`setInterval`. -/
def start (queryFails : Bool) (store : List ChangeRecord) (l : Listener)
    (h : Nat) : Listener :=
  if l.isListening then l
  else
    { isListening := true, pollInterval := some h,
      lastProcessedId := initializeLastProcessedId queryFails store,
      intervalsCreated := l.intervalsCreated + 1 }

/-- WebSocket client as `broadcastChange` sees it: an id, the `readyState`
field, and whether `send` throws on this client. -/
structure Client where
  cid : Nat
  readyState : Nat
  sendFails : Bool
  deriving Repr, DecidableEq

/-- Sends of `broadcastChange`'s `forEach`: open clients are sent the
message in order; a `send` that throws propagates out of the `forEach`,
so clients not yet visited receive nothing. Returns the ids that received
the message and whether the loop completed without a thrown error. -/
def broadcastSends : List Client → List Nat × Bool
  | [] => ([], true)
  | c :: rest =>
      if c.readyState = 1 then
        if c.sendFails then ([], false)
        else
          let p := broadcastSends rest
          (c.cid :: p.1, p.2)
      else broadcastSends rest

/-- Result of `broadcastChange`: which clients received the message, the
client set afterwards, and whether the `forEach` completed. -/
structure BroadcastResult where
  delivered : List Nat
  clientsAfter : List Client
  ok : Bool
  deriving Repr, DecidableEq

/-- Translation of `broadcastChange(changeData)`: iterate
`wsServer.clients`, sending to each client with `readyState === 1`; the
function never mutates the client set (there is no removal or state change
on failure in the source). -/
def broadcastChange (clients : List Client) : BroadcastResult :=
  let p := broadcastSends clients
  { delivered := p.1, clientsAfter := clients, ok := p.2 }

end ChangeListener

namespace BinlogListener

/-- Binlog event as `handleBinlogEvent` consumes it: the table name, the
event name, and `rows[0]` (for updates, its `before`/`after` parts). A row
that is absent/undefined is `none`. -/
inductive BinlogEvent where
  | writerows (tableName : String) (row : Option Order)
  | updaterows (tableName : String) (before after : Option Order)
  | deleterows (tableName : String) (row : Option Order)
  | other (tableName : String) (eventName : String)
  deriving Repr, DecidableEq

/-- Translation of `formatBinlogData(row)`: null for a missing row, else an
object with the six entity fields. -/
def formatBinlogData : Option Order → Option Order
  | none => none
  | some r =>
      some { id := r.id, customer_name := r.customer_name,
             product_name := r.product_name, status := r.status,
             updated_at := r.updated_at, created_at := r.created_at }

/-- Translation of `handleBinlogEvent(binlogEvent)`: events on other tables
and unknown event names are ignored; otherwise the `changeData` object is
built and broadcast unconditionally. `ts` is `new Date().toISOString()`.
Returns the broadcast message, `none` if nothing is broadcast. -/
def handleBinlogEvent (ts : String) : BinlogEvent → Option ChangeData
  | .writerows tbl row =>
      if tbl = "orders" then
        some { type := "INSERT", table := "orders", timestamp := ts,
               changeId := none, data := some (formatBinlogData row),
               oldData := none, newData := none }
      else none
  | .updaterows tbl beforeRow afterRow =>
      if tbl = "orders" then
        some { type := "UPDATE", table := "orders", timestamp := ts,
               changeId := none, data := none,
               oldData := some (formatBinlogData beforeRow),
               newData := some (formatBinlogData afterRow) }
      else none
  | .deleterows tbl row =>
      if tbl = "orders" then
        some { type := "DELETE", table := "orders", timestamp := ts,
               changeId := none, data := some (formatBinlogData row),
               oldData := none, newData := none }
      else none
  | .other _ _ => none

end BinlogListener

namespace Server

/-- Message on the wire to one subscriber: the `INITIAL_DATA` snapshot or a
broadcast change event. -/
inductive WireMsg where
  | initialData (orders : List Order) (timestamp : String)
  | change (e : ChangeData)
  deriving Repr, DecidableEq

/-- State of the WebSocket server: the tracked client set (`wss.clients`,
populated by the library on connection), the connections whose
`getAllOrders()` snapshot fetch is still in flight, and the append-only log
of (connection, message) deliveries. -/
structure SrvState where
  clients : List Nat
  pending : List Nat
  log : List (Nat × WireMsg)
  deriving Repr, DecidableEq

/-- Server state before any connection. -/
def initSrv : SrvState := { clients := [], pending := [], log := [] }

/-- Asynchronous steps of the connection handler and the broadcast path.

`connect c` is the synchronous part of `wss.on('connection')`: the library
adds the socket to `wss.clients` and the handler starts the
`database.getAllOrders()` promise; the `INITIAL_DATA` send happens only
when that promise resolves, which is a separate later step.

`snapshotDone c orders ts` is the `.then` callback delivering the
`INITIAL_DATA` message to `c`.

`publish e` is `broadcastChange` reaching every currently tracked
client. -/
inductive SEvent where
  | connect (c : Nat)
  | snapshotDone (c : Nat) (orders : List Order) (ts : String)
  | publish (e : ChangeData)
  deriving Repr, DecidableEq

/-- One asynchronous step of the server. -/
def stepS (s : SrvState) : SEvent → SrvState
  | .connect c =>
      { s with clients := s.clients ++ [c], pending := s.pending ++ [c] }
  | .snapshotDone c orders ts =>
      if c ∈ s.pending then
        { s with pending := s.pending.erase c,
                 log := s.log ++ [(c, .initialData orders ts)] }
      else s
  | .publish e =>
      { s with log := s.log ++ s.clients.map fun c => (c, .change e) }

/-- Run of a sequence of server steps. -/
def runS (s : SrvState) : List SEvent → SrvState
  | [] => s
  | e :: es => runS (stepS s e) es

/-- Messages a given connection received, in order. -/
def inbox (s : SrvState) (c : Nat) : List WireMsg :=
  (s.log.filter fun p => p.1 = c).map Prod.snd

end Server

/-! Concrete fixtures used in scenario evaluations. -/

/-- Sample entity row. -/
def sampleOrder : Order :=
  { id := 5, customer_name := "Alice", product_name := "Laptop",
    status := "pending", updated_at := "t1", created_at := "t0" }

/-- Second sample entity row. -/
def sampleOrder2 : Order :=
  { id := 5, customer_name := "Alice", product_name := "Laptop",
    status := "shipped", updated_at := "t2", created_at := "t0" }

/-- Undelivered INSERT change record with id 1 and a structured payload. -/
def rec1 : ChangeRecord :=
  { id := 1, operation_type := "INSERT", old_data := .jsNull,
    new_data := .jsObj sampleOrder, changed_at := "t1", processed := false }

/-- Delivered change record with id 2. -/
def rec2 : ChangeRecord :=
  { id := 2, operation_type := "INSERT", old_data := .jsNull,
    new_data := .jsObj sampleOrder2, changed_at := "t2", processed := true }

/-- Store holding an undelivered record below a delivered one. -/
def store12 : List ChangeRecord := [rec1, rec2]

/-- Parse function for fixtures: every string is malformed. -/
def parse0 : String → Option Order := fun _ => none

/-- Mark-delivered failure oracle that fails exactly on id 1. -/
def fmFail1 : Nat → Bool := fun i => decide (i = 1)

/-- Mark-delivered failure oracle that never fails. -/
def fmOk : Nat → Bool := fun _ => false

/-- The message `processChange` broadcasts for `rec1`. -/
def rec1Event : ChangeData :=
  { type := "INSERT", table := "orders", timestamp := "t1",
    changeId := some 1, data := some (some sampleOrder),
    oldData := none, newData := none }

/-- Undelivered record with id 3, below a cursor of 5 in the C7 scenario. -/
def rec3back : ChangeRecord :=
  { id := 3, operation_type := "INSERT", old_data := .jsNull,
    new_data := .jsObj sampleOrder, changed_at := "t3", processed := false }

/-- Undelivered record with id 3, above the cursor in the C2 scenario. -/
def rec3u : ChangeRecord :=
  { id := 3, operation_type := "INSERT", old_data := .jsNull,
    new_data := .jsObj sampleOrder, changed_at := "t3", processed := false }

/-- Store with a delivered record (id 2) and an undelivered one above it
(id 3). -/
def storeW : List ChangeRecord := [rec2, rec3u]

/-- Record whose payload is the non-JSON placeholder string. -/
def recPoison : ChangeRecord :=
  { id := 9, operation_type := "INSERT", old_data := .jsNull,
    new_data := .jsStr "[object Object]", changed_at := "t9",
    processed := false }

/-- Sample UPDATE change record with structured payloads. -/
def recU : ChangeRecord :=
  { id := 4, operation_type := "UPDATE", old_data := .jsObj sampleOrder,
    new_data := .jsObj sampleOrder2, changed_at := "t2", processed := false }

/-- The message `processChange` broadcasts for `recU`. -/
def recUEvent : ChangeData :=
  { type := "UPDATE", table := "orders", timestamp := "t2",
    changeId := some 4, data := some (some sampleOrder2),
    oldData := some (some sampleOrder), newData := some (some sampleOrder2) }

/-- Two open clients; the first one's `send` throws. -/
def clients6 : List ChangeListener.Client :=
  [{ cid := 1, readyState := 1, sendFails := true },
   { cid := 2, readyState := 1, sendFails := false }]

/-- A listener that is already listening. -/
def lOn : ChangeListener.Listener :=
  { isListening := true, pollInterval := some 3, lastProcessedId := 2,
    intervalsCreated := 1 }

namespace ChangeListener

/-- Helper fact for concrete runs: a draw of 1 does not trigger cleanup. -/
lemma one_not_lt_tenth : ¬((1 : ℚ) < 1/10) := by norm_num

/-- Evaluation lemma: with a random draw of 1 the cleanup branch is not
taken, so a tick is fetch-then-loop. -/
lemma checkForChanges_rand_one (parse : String → Option Order)
    (fm : Nat → Bool) (fc : Bool) (store : List ChangeRecord) (cur : Nat) :
    checkForChanges parse fm 1 fc store cur =
      (if fetchChanges store cur = [] then
        ({ store := store, cursor := cur, events := [] } : TickResult)
      else
        let b := processBatch parse fm store cur (fetchChanges store cur)
        { store := b.store, cursor := b.cursor, events := b.events }) := by
  simp only [checkForChanges, one_not_lt_tenth, if_false]
  split
  · rfl
  · split <;> rfl

lemma mem_insertById {x r : ChangeRecord} {l : List ChangeRecord} :
    x ∈ insertById r l ↔ x = r ∨ x ∈ l := by
  induction l with
  | nil => simp [insertById]
  | cons y ys ih =>
      by_cases h : r.id ≤ y.id
      · simp [insertById, h]
      · simp [insertById, h, ih]
        tauto

lemma mem_sortById {x : ChangeRecord} {l : List ChangeRecord} :
    x ∈ sortById l ↔ x ∈ l := by
  induction l with
  | nil => simp [sortById]
  | cons y ys ih =>
      simp only [sortById, List.foldr_cons, List.mem_cons]
      rw [show List.foldr insertById [] ys = sortById ys from rfl] at *
      rw [mem_insertById, ih]

lemma length_insertById (r : ChangeRecord) (l : List ChangeRecord) :
    (insertById r l).length = l.length + 1 := by
  induction l with
  | nil => simp [insertById]
  | cons y ys ih =>
      by_cases h : r.id ≤ y.id
      · simp [insertById, h]
      · simp [insertById, h, ih]

lemma length_sortById (l : List ChangeRecord) :
    (sortById l).length = l.length := by
  induction l with
  | nil => simp [sortById]
  | cons y ys ih =>
      simp only [sortById, List.foldr_cons] at *
      rw [length_insertById, ih, List.length_cons]

/-- Everything the fetch query returns is an undelivered record of the
store with id above the cursor. -/
lemma mem_fetchChanges {store : List ChangeRecord} {cursor : Nat}
    {c : ChangeRecord} (h : c ∈ fetchChanges store cursor) :
    c ∈ store ∧ cursor < c.id ∧ c.processed = false := by
  have h1 : c ∈ sortById (store.filter fun r => cursor < r.id ∧ r.processed = false) :=
    List.mem_of_mem_take h
  rw [mem_sortById] at h1
  have h2 := List.of_mem_filter h1
  simp only [decide_eq_true_eq] at h2
  exact ⟨List.mem_of_mem_filter h1, h2⟩

/-- When at most 50 records qualify, the fetch query returns every
undelivered record above the cursor. -/
lemma fetchChanges_complete {store : List ChangeRecord} {cursor : Nat}
    {c : ChangeRecord}
    (hlen : (store.filter fun r => cursor < r.id ∧ r.processed = false).length ≤ 50)
    (hc : c ∈ store) (hid : cursor < c.id) (hp : c.processed = false) :
    c ∈ fetchChanges store cursor := by
  unfold fetchChanges
  rw [List.take_of_length_le (by rw [length_sortById]; exact hlen)]
  rw [mem_sortById, List.mem_filter]
  exact ⟨hc, by simp [hid, hp]⟩

/-- The cursor after a batch is either unchanged or the id of a record of
the batch. -/
lemma processBatch_cursor_mem (parse : String → Option Order)
    (fm : Nat → Bool) (store : List ChangeRecord) (cursor : Nat)
    (batch : List ChangeRecord) :
    (processBatch parse fm store cursor batch).cursor = cursor ∨
      (processBatch parse fm store cursor batch).cursor ∈
        batch.map ChangeRecord.id := by
  induction batch generalizing store cursor with
  | nil => left; rfl
  | cons c rest ih =>
      simp only [processBatch]
      by_cases h : fm c.id = true
      · simp only [h, if_true]
        right; simp
      · simp only [eq_false_of_ne_true h, Bool.false_eq_true, if_false]
        rcases ih (markDelivered store c.id) c.id with h1 | h1
        · right; rw [h1]; simp
        · right; simp only [List.map_cons, List.mem_cons]
          exact Or.inr h1

lemma markedInStore_markDelivered_self (store : List ChangeRecord) (i : Nat) :
    markedInStore (markDelivered store i) i := by
  intro x hx hid
  rcases List.mem_map.mp hx with ⟨y, _, hy⟩
  by_cases h : y.id = i
  · rw [← hy]; simp [h]
  · exfalso
    rw [← hy] at hid; simp [h] at hid

lemma markedInStore_markDelivered_mono {store : List ChangeRecord}
    {i : Nat} (j : Nat) (h : markedInStore store i) :
    markedInStore (markDelivered store j) i := by
  intro x hx hid
  rcases List.mem_map.mp hx with ⟨y, hy, hxy⟩
  by_cases hj : y.id = j
  · rw [← hxy]; simp [hj]
  · rw [← hxy] at hid ⊢
    simp only [hj, if_false] at hid ⊢
    exact h y hy hid

lemma processBatch_store_marked_mono (parse : String → Option Order)
    (fm : Nat → Bool) {store : List ChangeRecord} (cursor : Nat)
    (batch : List ChangeRecord) {i : Nat} (h : markedInStore store i) :
    markedInStore (processBatch parse fm store cursor batch).store i := by
  induction batch generalizing store cursor with
  | nil => exact h
  | cons c rest ih =>
      simp only [processBatch]
      by_cases hf : fm c.id = true
      · simpa [hf] using h
      · simp only [eq_false_of_ne_true hf, Bool.false_eq_true, if_false]
        exact ih c.id (markedInStore_markDelivered_mono c.id h)

/-- If no mark-delivered query fails on the batch, every record of the
batch ends up marked delivered in the resulting store. -/
lemma processBatch_marks_all (parse : String → Option Order)
    (fm : Nat → Bool) (store : List ChangeRecord) (cursor : Nat)
    (batch : List ChangeRecord) (hfm : ∀ c ∈ batch, fm c.id = false) :
    ∀ c ∈ batch,
      markedInStore (processBatch parse fm store cursor batch).store c.id := by
  induction batch generalizing store cursor with
  | nil => intro c hc; cases hc
  | cons b rest ih =>
      intro c hc
      have hb : fm b.id = false := hfm b (List.mem_cons_self b rest)
      simp only [processBatch, hb, Bool.false_eq_true, if_false]
      rcases List.mem_cons.mp hc with rfl | hc
      · exact processBatch_store_marked_mono parse fm c.id rest
          (markedInStore_markDelivered_self store c.id)
      · exact ih (markDelivered store b.id) b.id
          (fun x hx => hfm x (List.mem_cons_of_mem b hx)) c hc

/-- If no mark-delivered query fails on the batch, the loop is not
aborted. -/
lemma processBatch_not_aborted (parse : String → Option Order)
    (fm : Nat → Bool) (store : List ChangeRecord) (cursor : Nat)
    (batch : List ChangeRecord) (hfm : ∀ c ∈ batch, fm c.id = false) :
    (processBatch parse fm store cursor batch).aborted = false := by
  induction batch generalizing store cursor with
  | nil => rfl
  | cons b rest ih =>
      have hb : fm b.id = false := hfm b (List.mem_cons_self b rest)
      simp only [processBatch, hb, Bool.false_eq_true, if_false]
      exact ih (markDelivered store b.id) b.id
        (fun x hx => hfm x (List.mem_cons_of_mem b hx))

/-- Cleanup never adds records: its output is a subset of its input. -/
lemma mem_cleanupOldChanges {fc : Bool} {store : List ChangeRecord}
    {x : ChangeRecord} (h : x ∈ cleanupOldChanges fc store) : x ∈ store := by
  unfold cleanupOldChanges at h
  by_cases hfc : fc = true
  · simpa [hfc] using h
  · simp only [eq_false_of_ne_true hfc, Bool.false_eq_true, if_false] at h
    rcases hget : (deliveredIdsDesc store).get? 1000 with _ | t
    · rwa [hget] at h
    · rw [hget] at h
      exact List.mem_of_mem_filter h

lemma mem_insertDesc {y x : Nat} {l : List Nat} :
    y ∈ insertDesc x l ↔ y = x ∨ y ∈ l := by
  induction l with
  | nil => simp [insertDesc]
  | cons z zs ih =>
      by_cases h : z ≤ x
      · simp [insertDesc, h]
      · simp [insertDesc, h, ih]
        tauto

lemma insertDesc_pairwise {x : Nat} {l : List Nat}
    (h : l.Pairwise (fun a b => b ≤ a)) :
    (insertDesc x l).Pairwise (fun a b => b ≤ a) := by
  induction l with
  | nil => simp [insertDesc]
  | cons z zs ih =>
      rcases List.pairwise_cons.mp h with ⟨hz, hzs⟩
      by_cases hle : z ≤ x
      · rw [insertDesc, if_pos hle]
        refine List.pairwise_cons.mpr ⟨?_, h⟩
        intro b hb
        rcases List.mem_cons.mp hb with rfl | hb
        · exact hle
        · exact le_trans (hz b hb) hle
      · rw [insertDesc, if_neg hle]
        refine List.pairwise_cons.mpr ⟨?_, ih hzs⟩
        intro b hb
        rcases mem_insertDesc.mp hb with rfl | hb
        · omega
        · exact hz b hb

lemma sortDesc_pairwise (l : List Nat) :
    (sortDesc l).Pairwise (fun a b => b ≤ a) := by
  induction l with
  | nil => simp [sortDesc]
  | cons x xs ih =>
      simp only [sortDesc, List.foldr_cons] at *
      exact insertDesc_pairwise ih

/-- In a descending list, every element taken before position `n` is at
least the element at position `n`. -/
lemma pairwise_take_ge {l : List Nat}
    (hl : l.Pairwise (fun a b => b ≤ a)) {n t : Nat}
    (ht : l.get? n = some t) : ∀ x ∈ l.take n, t ≤ x := by
  induction l generalizing n with
  | nil => intro x hx; simp at ht
  | cons y ys ih =>
      cases n with
      | zero => intro x hx; simp at hx
      | succ m =>
          intro x hx
          rw [List.take_succ_cons] at hx
          rcases List.pairwise_cons.mp hl with ⟨hy, hys⟩
          rcases List.mem_cons.mp hx with rfl | hx
          · exact hy t (List.get?_mem (by simpa using ht))
          · exact ih hys (by simpa using ht) x hx

/-- Cleanup never deletes an undelivered record. -/
lemma cleanup_keeps_unprocessed {fc : Bool} {store : List ChangeRecord}
    {r : ChangeRecord} (hr : r ∈ store) (hp : r.processed = false) :
    r ∈ cleanupOldChanges fc store := by
  unfold cleanupOldChanges
  by_cases hfc : fc = true
  · simpa [hfc] using hr
  · simp only [eq_false_of_ne_true hfc, Bool.false_eq_true, if_false]
    rcases hget : (deliveredIdsDesc store).get? 1000 with _ | t
    · exact hr
    · exact List.mem_filter_of_mem hr (by simp [hp])

/-- Cleanup keeps every delivered record whose id is among the 1000
highest delivered ids. -/
lemma cleanup_keeps_recent {fc : Bool} {store : List ChangeRecord}
    {r : ChangeRecord} (hr : r ∈ store) (_hp : r.processed = true)
    (htake : r.id ∈ (deliveredIdsDesc store).take 1000) :
    r ∈ cleanupOldChanges fc store := by
  unfold cleanupOldChanges
  by_cases hfc : fc = true
  · simpa [hfc] using hr
  · simp only [eq_false_of_ne_true hfc, Bool.false_eq_true, if_false]
    rcases hget : (deliveredIdsDesc store).get? 1000 with _ | t
    · exact hr
    · refine List.mem_filter_of_mem hr ?_
      have hge : t ≤ r.id :=
        pairwise_take_ge (sortDesc_pairwise _) hget r.id htake
      simp only [decide_eq_true_eq, not_and]
      intro _
      omega

/-- Cleanup does not change the set of undelivered records. -/
lemma cleanup_filter_unprocessed (fc : Bool) (store : List ChangeRecord) :
    ((cleanupOldChanges fc store).filter fun r => r.processed = false) =
      (store.filter fun r => r.processed = false) := by
  unfold cleanupOldChanges
  by_cases hfc : fc = true
  · simp [hfc]
  · simp only [eq_false_of_ne_true hfc, Bool.false_eq_true, if_false]
    rcases hget : (deliveredIdsDesc store).get? 1000 with _ | t
    · rfl
    · rw [List.filter_filter]
      apply List.filter_congr
      intro a _
      cases hpa : a.processed <;> simp [hpa]

/-- Branch analysis of a tick: either the batch is empty and the tick is a
no-op, or the tick's result is the loop's result, with cleanup possibly
applied to the store. -/
lemma checkForChanges_cases (parse : String → Option Order)
    (fm : Nat → Bool) (rand : ℚ) (fc : Bool) (store : List ChangeRecord)
    (cur : Nat) :
    (fetchChanges store cur = [] ∧
      checkForChanges parse fm rand fc store cur =
        { store := store, cursor := cur, events := [] }) ∨
    (fetchChanges store cur ≠ [] ∧
      (checkForChanges parse fm rand fc store cur =
        { store := (processBatch parse fm store cur (fetchChanges store cur)).store,
          cursor := (processBatch parse fm store cur (fetchChanges store cur)).cursor,
          events := (processBatch parse fm store cur (fetchChanges store cur)).events } ∨
       checkForChanges parse fm rand fc store cur =
        { store := cleanupOldChanges fc
            (processBatch parse fm store cur (fetchChanges store cur)).store,
          cursor := (processBatch parse fm store cur (fetchChanges store cur)).cursor,
          events := (processBatch parse fm store cur (fetchChanges store cur)).events })) := by
  by_cases h1 : fetchChanges store cur = []
  · left
    refine ⟨h1, ?_⟩
    simp only [checkForChanges]
    rw [if_pos h1]
  · right
    refine ⟨h1, ?_⟩
    by_cases h2 : (processBatch parse fm store cur (fetchChanges store cur)).aborted = true
    · left
      simp only [checkForChanges]
      rw [if_neg h1, if_pos h2]
    · by_cases h3 : rand < 1/10
      · right
        simp only [checkForChanges]
        rw [if_neg h1, if_neg h2, if_pos h3]
      · left
        simp only [checkForChanges]
        rw [if_neg h1, if_neg h2, if_neg h3]

/-- The random draw influences a tick only through the `< 0.1`
threshold. -/
lemma checkForChanges_rand_congr (parse : String → Option Order)
    (fm : Nat → Bool) (fc : Bool) (store : List ChangeRecord) (cur : Nat)
    {r₁ r₂ : ℚ} (h : r₁ < 1/10 ↔ r₂ < 1/10) :
    checkForChanges parse fm r₁ fc store cur =
      checkForChanges parse fm r₂ fc store cur := by
  by_cases h1 : fetchChanges store cur = []
  · simp only [checkForChanges]
    rw [if_pos h1, if_pos h1]
  · by_cases h2 : (processBatch parse fm store cur (fetchChanges store cur)).aborted = true
    · simp only [checkForChanges]
      rw [if_neg h1, if_neg h1, if_pos h2, if_pos h2]
    · simp only [checkForChanges]
      rw [if_neg h1, if_neg h1, if_neg h2, if_neg h2]
      by_cases h3 : r₁ < 1/10
      · rw [if_pos h3, if_pos (h.mp h3)]
      · rw [if_neg h3, if_neg ((not_iff_not.mpr h).mp h3)]

end ChangeListener

namespace Server

lemma runS_append (s : SrvState) (a b : List SEvent) :
    runS s (a ++ b) = runS (runS s a) b := by
  induction a generalizing s with
  | nil => rfl
  | cons e es ih => simp [runS, ih]

lemma clients_mono {c : Nat} (s : SrvState) (tr : List SEvent)
    (h : c ∈ s.clients) : c ∈ (runS s tr).clients := by
  induction tr generalizing s with
  | nil => exact h
  | cons e es ih =>
      apply ih
      cases e with
      | connect d => simp [stepS, h]
      | snapshotDone d os ts =>
          by_cases hp : d ∈ s.pending <;> simp [stepS, hp, h]
      | publish ev => simpa [stepS] using h

end Server


/-! Claim theorems. -/

open ChangeListener BinlogListener

/-- C10: calling `start()` on a `ChangeListener` that is already listening
is a no-op: it returns immediately, creates no second poll interval, and
leaves `lastProcessedId`, `pollInterval` and `isListening` (and the count
of intervals ever created) unchanged. -/
theorem c10_start_noop (queryFails : Bool) (store : List ChangeRecord)
    (l : Listener) (h : Nat) (hl : l.isListening = true) :
    start queryFails store l h = l := by
  simp [start, hl]

/-- Witness for C10 at a concrete already-listening listener. -/
theorem c10_start_noop_witness : start true store12 lOn 9 = lOn :=
  c10_start_noop true store12 lOn 9 rfl

/-- C7 counterexample: the per-record loop body moves the cursor backward
silently when handed a record whose id (3) is below the cursor (5) — there
is no defensive rejection of a backward move. -/
theorem c7_backward_move_accepted :
    (processBatch parse0 fmOk [] 5 [rec3back]).cursor = 3 ∧
    (processBatch parse0 fmOk [] 5 [rec3back]).aborted = false := by decide

/-- C7 (amended): the cursor never decreases across a poller tick — but
only because the fetch query returns records with id above the cursor; the
assignment `lastProcessedId = change.id` itself is unconditional. -/
theorem c7_cursor_monotonic (parse : String → Option Order)
    (fm : Nat → Bool) (rand : ℚ) (fc : Bool) (store : List ChangeRecord)
    (cur : Nat) :
    cur ≤ (checkForChanges parse fm rand fc store cur).cursor := by
  have key : cur ≤ (processBatch parse fm store cur (fetchChanges store cur)).cursor := by
    rcases processBatch_cursor_mem parse fm store cur (fetchChanges store cur) with h | h
    · rw [h]
    · rcases List.mem_map.mp h with ⟨c, hc, hid⟩
      have hgt := (mem_fetchChanges hc).2.1
      omega
  rcases checkForChanges_cases parse fm rand fc store cur with ⟨h1, heq⟩ | ⟨h1, heq | heq⟩ <;>
    rw [heq] <;> exact key

/-- C8 counterexample: when the max-delivered-id query fails, `start`
succeeds anyway — the listener comes up listening, with a poll interval,
polling from the default cursor 0. Startup is not fatal. -/
theorem c8_init_failure_not_fatal :
    start true store12 mkListener 7 =
      { isListening := true, pollInterval := some 7, lastProcessedId := 0,
        intervalsCreated := 1 } := by decide

/-- C8 (amended): if the cursor-initialization query fails at startup, the
error is swallowed inside `initializeLastProcessedId`: the cursor defaults
to 0 and the listener starts polling normally. -/
theorem c8_init_failure_swallowed (store : List ChangeRecord) (l : Listener)
    (h : Nat) (hl : l.isListening = false) :
    start true store l h =
      { isListening := true, pollInterval := some h, lastProcessedId := 0,
        intervalsCreated := l.intervalsCreated + 1 } := by
  simp [start, hl, initializeLastProcessedId]

/-- Witness for C8 (amended) at the freshly constructed listener. -/
theorem c8_init_failure_swallowed_witness :
    start true store12 mkListener 5 =
      { isListening := true, pollInterval := some 5, lastProcessedId := 0,
        intervalsCreated := 1 } :=
  c8_init_failure_swallowed store12 mkListener 5 rfl

/-- C6 counterexample: with two open clients where the first one's `send`
throws, the broadcast delivers to nobody — the healthy second client is
prevented from receiving the event — and the failing client is not removed
from the client set. -/
theorem c6_send_failure_aborts :
    broadcastChange clients6 =
      { delivered := [], clientsAfter := clients6, ok := false } := by decide

/-- C6 (amended): `broadcastChange` never alters the live set (no
marking-CLOSED, no removal), and the clients that receive the event are
exactly the open clients up to — and excluding — the first open client
whose `send` throws; clients after that point are skipped, and failed
sends are not retried. -/
theorem c6_send_failure_behavior (clients : List Client) :
    (broadcastChange clients).clientsAfter = clients ∧
    (broadcastChange clients).delivered =
      (((clients.filter fun c => c.readyState = 1).takeWhile
          fun c => !c.sendFails).map Client.cid) := by
  refine ⟨rfl, ?_⟩
  show (broadcastSends clients).1 = _
  induction clients with
  | nil => rfl
  | cons c rest ih =>
      by_cases h1 : c.readyState = 1
      · by_cases h2 : c.sendFails = true
        · simp [broadcastSends, h1, h2, List.filter_cons, List.takeWhile_cons]
        · simp [broadcastSends, h1, h2, List.filter_cons, List.takeWhile_cons, ih]
      · simp [broadcastSends, h1, List.filter_cons, ih]

/-- C5 counterexample: the binlog variant's UPDATE message carries
`oldData` and `newData` but no `data` field and no `changeId` — so the
claimed shape does not hold in both listener variants. -/
theorem c5_binlog_update_shape :
    handleBinlogEvent "ts"
        (.updaterows "orders" (some sampleOrder) (some sampleOrder2)) =
      some { type := "UPDATE", table := "orders", timestamp := "ts",
             changeId := none, data := none,
             oldData := some (some sampleOrder),
             newData := some (some sampleOrder2) } := by decide

/-- C5 (amended): in the polling listener, an INSERT record with a
structured payload emits exactly the claimed message (type, data, changeId),
and every broadcast UPDATE message carries `oldData`, `newData`,
`data = newData`, `timestamp` and `changeId`; in the binlog variant the
UPDATE message carries `oldData`, `newData` and `timestamp` but no `data`
field and no `changeId`. -/
theorem c5_message_shapes :
    (∀ (parse : String → Option Order) (i : Nat) (old : JSVal) (o : Order)
        (ts : String) (b : Bool),
      processChange parse
          { id := i, operation_type := "INSERT", old_data := old,
            new_data := .jsObj o, changed_at := ts, processed := b } =
        some { type := "INSERT", table := "orders", timestamp := ts,
               changeId := some i, data := some (some o),
               oldData := none, newData := none }) ∧
    (∀ (parse : String → Option Order) (c : ChangeRecord) (cd : ChangeData),
      c.operation_type = "UPDATE" → processChange parse c = some cd →
        cd.oldData = some (safeJSONParse parse c.old_data) ∧
        cd.newData = some (safeJSONParse parse c.new_data) ∧
        cd.data = cd.newData ∧
        cd.timestamp = c.changed_at ∧ cd.changeId = some c.id) ∧
    (∀ (ts : String) (b a : Option Order),
      handleBinlogEvent ts (.updaterows "orders" b a) =
        some { type := "UPDATE", table := "orders", timestamp := ts,
               changeId := none, data := none,
               oldData := some (formatBinlogData b),
               newData := some (formatBinlogData a) }) := by
  refine ⟨?_, ?_, ?_⟩
  · intro parse i old o ts b
    simp [processChange, safeJSONParse]
  · intro parse c cd hop hcd
    simp only [processChange, hop] at hcd
    norm_num at hcd
    rcases hnd : safeJSONParse parse c.new_data with _ | o
    · rw [hnd] at hcd
      simp at hcd
    · rw [hnd] at hcd
      simp at hcd
      rw [← hcd]
      simp [hnd]
  · intro ts b a
    simp [handleBinlogEvent]

/-- Witness for C5 (amended) at a concrete UPDATE record of the polling
listener. -/
theorem c5_message_shapes_witness :
    recUEvent.oldData = some (safeJSONParse parse0 recU.old_data) ∧
    recUEvent.newData = some (safeJSONParse parse0 recU.new_data) ∧
    recUEvent.data = recUEvent.newData ∧
    recUEvent.timestamp = recU.changed_at ∧
    recUEvent.changeId = some recU.id :=
  c5_message_shapes.2.1 parse0 recU recUEvent rfl (by decide)

/-- C4: a record whose payload is the placeholder string
`"[object Object]"` — or any string `JSON.parse` rejects — yields no event
from the normalizer (the payload becomes null); the loop still marks every
batch record delivered and is never aborted by normalization, and a record
marked delivered is never returned by a later fetch. -/
theorem c4_poison_record_policy :
    (∀ parse : String → Option Order,
        safeJSONParse parse (.jsStr "[object Object]") = none) ∧
    (∀ (parse : String → Option Order) (s : String),
        parse s = none → safeJSONParse parse (.jsStr s) = none) ∧
    (∀ (parse : String → Option Order) (c : ChangeRecord),
        (c.operation_type = "INSERT" ∧ safeJSONParse parse c.new_data = none) ∨
        (c.operation_type = "UPDATE" ∧ safeJSONParse parse c.new_data = none) ∨
        (c.operation_type = "DELETE" ∧ safeJSONParse parse c.old_data = none) →
        processChange parse c = none) ∧
    (∀ (parse : String → Option Order) (fm : Nat → Bool)
        (store : List ChangeRecord) (cur : Nat) (batch : List ChangeRecord),
        (∀ c ∈ batch, fm c.id = false) →
        (processBatch parse fm store cur batch).aborted = false ∧
        ∀ c ∈ batch,
          markedInStore (processBatch parse fm store cur batch).store c.id) ∧
    (∀ (store : List ChangeRecord) (cur : Nat) (c : ChangeRecord),
        c ∈ fetchChanges store cur → c.processed = false) := by
  refine ⟨?_, ?_, ?_, ?_, ?_⟩
  · intro parse
    simp [safeJSONParse]
  · intro parse s hs
    simp only [safeJSONParse]
    split_ifs <;> simp [hs]
  · intro parse c h
    rcases h with ⟨hop, hnone⟩ | ⟨hop, hnone⟩ | ⟨hop, hnone⟩ <;>
      simp [processChange, hop, hnone]
  · intro parse fm store cur batch hfm
    exact ⟨processBatch_not_aborted parse fm store cur batch hfm,
           processBatch_marks_all parse fm store cur batch hfm⟩
  · intro store cur c hc
    exact (mem_fetchChanges hc).2.2

/-- Witness for C4 at the concrete placeholder-payload record. -/
theorem c4_poison_record_policy_witness :
    processChange parse0 recPoison = none ∧
    (processBatch parse0 fmOk [recPoison] 0 [recPoison]).aborted = false := by
  constructor
  · exact c4_poison_record_policy.2.2.1 parse0 recPoison
      (Or.inl ⟨rfl, by decide⟩)
  · exact (c4_poison_record_policy.2.2.2.1 parse0 fmOk [recPoison] 0
      [recPoison] (by decide)).1

/-- C2 counterexample: in the store `[rec1 (id 1, undelivered), rec2 (id 2,
delivered)]` the fresh cursor initializes to 2, and a poll tick from that
cursor is a no-op — the undelivered record with id 1 below the maximum
delivered id is skipped, contradicting "no delivered=false record is
skipped". -/
theorem c2_low_undelivered_record_skipped :
    initializeLastProcessedId false store12 = 2 ∧
    rec1 ∈ store12 ∧ rec1.processed = false ∧
    checkForChanges parse0 fmOk 1 false store12 2 =
      { store := store12, cursor := 2, events := [] } := by
  refine ⟨by decide, by decide, by decide, ?_⟩
  rw [checkForChanges_rand_one]
  decide

/-- C2 (amended): the startup cursor is the maximum delivered id (0 if
none); polling from it never refetches a delivered record, and — when at
most a batch worth of records qualify and no mark fails — one tick marks
delivered every undelivered record whose id is above that cursor.
Undelivered records at or below the cursor are outside the fetch window. -/
theorem c2_fresh_cursor_delivery (parse : String → Option Order)
    (fm : Nat → Bool) (rand : ℚ) (fc : Bool) (store : List ChangeRecord)
    (r : ChangeRecord)
    (h50 : (store.filter fun x =>
        maxDeliveredId store < x.id ∧ x.processed = false).length ≤ 50)
    (hfm : ∀ c ∈ store, fm c.id = false) :
    initializeLastProcessedId false store = maxDeliveredId store ∧
    (∀ c ∈ fetchChanges store (maxDeliveredId store),
        c.processed = false ∧ maxDeliveredId store < c.id) ∧
    (r ∈ store → r.processed = false → maxDeliveredId store < r.id →
      markedInStore
        (checkForChanges parse fm rand fc store (maxDeliveredId store)).store
        r.id) := by
  refine ⟨rfl, ?_, ?_⟩
  · intro c hc
    exact ⟨(mem_fetchChanges hc).2.2, (mem_fetchChanges hc).2.1⟩
  · intro hr hp hid
    have hrfetch : r ∈ fetchChanges store (maxDeliveredId store) :=
      fetchChanges_complete h50 hr hid hp
    have hne : fetchChanges store (maxDeliveredId store) ≠ [] :=
      List.ne_nil_of_mem hrfetch
    have hfm' : ∀ c ∈ fetchChanges store (maxDeliveredId store), fm c.id = false :=
      fun c hc => hfm c (mem_fetchChanges hc).1
    have hmark := processBatch_marks_all parse fm store (maxDeliveredId store)
      (fetchChanges store (maxDeliveredId store)) hfm' r hrfetch
    rcases checkForChanges_cases parse fm rand fc store (maxDeliveredId store)
      with ⟨h1, _⟩ | ⟨_, heq | heq⟩
    · exact absurd h1 hne
    · rw [heq]
      exact hmark
    · rw [heq]
      intro x hx hxid
      exact hmark x (mem_cleanupOldChanges hx) hxid

/-- Witness for C2 (amended): in a store with a delivered record (id 2) and
an undelivered one above it (id 3), a tick from the fresh cursor marks
record 3 delivered. -/
theorem c2_fresh_cursor_delivery_witness :
    markedInStore
      (checkForChanges parse0 fmOk 1 false storeW
        (maxDeliveredId storeW)).store rec3u.id :=
  (c2_fresh_cursor_delivery parse0 fmOk 1 false storeW rec3u (by decide)
      (by decide)).2.2 (by decide) (by decide) (by decide)

/-- C9: the retention sweep deletes only delivered records and keeps every
delivered record among the 1000 highest delivered ids; a cleanup failure is
swallowed — cursor, broadcast events and the set of undelivered records of
a tick are identical whether cleanup succeeds or fails — and the random
draw influences a tick only through the `< 0.1` threshold. -/
theorem c9_retention_sweeper :
    (∀ (fc : Bool) (store : List ChangeRecord) (r : ChangeRecord),
        r ∈ store → r.processed = false → r ∈ cleanupOldChanges fc store) ∧
    (∀ (fc : Bool) (store : List ChangeRecord) (r : ChangeRecord),
        r ∈ store → r.processed = true →
        r.id ∈ (deliveredIdsDesc store).take 1000 →
        r ∈ cleanupOldChanges fc store) ∧
    (∀ (parse : String → Option Order) (fm : Nat → Bool) (rand : ℚ)
        (store : List ChangeRecord) (cur : Nat),
        (checkForChanges parse fm rand true store cur).cursor =
          (checkForChanges parse fm rand false store cur).cursor ∧
        (checkForChanges parse fm rand true store cur).events =
          (checkForChanges parse fm rand false store cur).events ∧
        ((checkForChanges parse fm rand true store cur).store.filter
            fun r => r.processed = false) =
          ((checkForChanges parse fm rand false store cur).store.filter
            fun r => r.processed = false)) ∧
    (∀ (parse : String → Option Order) (fm : Nat → Bool) (fc : Bool)
        (store : List ChangeRecord) (cur : Nat) (r₁ r₂ : ℚ),
        (r₁ < 1/10 ↔ r₂ < 1/10) →
        checkForChanges parse fm r₁ fc store cur =
          checkForChanges parse fm r₂ fc store cur) := by
  refine ⟨?_, ?_, ?_, ?_⟩
  · intro fc store r hr hp
    exact cleanup_keeps_unprocessed hr hp
  · intro fc store r hr hp htake
    exact cleanup_keeps_recent hr hp htake
  · intro parse fm rand store cur
    rcases checkForChanges_cases parse fm rand true store cur
      with ⟨h1, e1⟩ | ⟨h1, e1 | e1⟩ <;>
      rcases checkForChanges_cases parse fm rand false store cur
        with ⟨h2, e2⟩ | ⟨h2, e2 | e2⟩ <;>
      first
        | exact absurd h2 h1
        | exact absurd h1 h2
        | (rw [e1, e2]
           refine ⟨rfl, rfl, ?_⟩
           first
             | rfl
             | exact (cleanup_filter_unprocessed false _).symm)
  · intro parse fm fc store cur r₁ r₂ h
    exact checkForChanges_rand_congr parse fm fc store cur h

/-- Witness for C9 at the concrete two-record store. -/
theorem c9_retention_sweeper_witness :
    rec1 ∈ cleanupOldChanges false store12 ∧
    rec2 ∈ cleanupOldChanges false store12 ∧
    checkForChanges parse0 fmOk (2/10) false store12 0 =
      checkForChanges parse0 fmOk (3/10) false store12 0 := by
  refine ⟨?_, ?_, ?_⟩
  · exact c9_retention_sweeper.1 false store12 rec1 (by decide) (by decide)
  · exact c9_retention_sweeper.2.1 false store12 rec2 (by decide) (by decide)
      (by decide)
  · exact c9_retention_sweeper.2.2.2 parse0 fmOk false store12 0 (2/10) (3/10)
      (by norm_num)

/-- C1 (code bug): with a single undelivered record whose mark-delivered
query fails, the tick publishes the record's event and advances the cursor
to the record's id before the failure; the record stays undelivered in the
store, yet every later tick of the same run — any parse function, failure
oracle, random draw — fetches nothing and republishes nothing, because the
fetch condition `id > cursor` now excludes the record. The event is lost
for the rest of the process run, contrary to the claimed at-least-once
retry. -/
theorem c1_markDelivered_failure_loses_record :
    (checkForChanges parse0 fmFail1 1 false [rec1] 0).events = [rec1Event] ∧
    (checkForChanges parse0 fmFail1 1 false [rec1] 0).cursor = 1 ∧
    (checkForChanges parse0 fmFail1 1 false [rec1] 0).store = [rec1] ∧
    (∀ (parse : String → Option Order) (fm : Nat → Bool) (rand : ℚ)
        (fc : Bool),
      checkForChanges parse fm rand fc [rec1] 1 =
        { store := [rec1], cursor := 1, events := [] }) := by
  have heval : checkForChanges parse0 fmFail1 1 false [rec1] 0 =
      { store := [rec1], cursor := 1, events := [rec1Event] } := by
    rw [checkForChanges_rand_one]
    decide
  refine ⟨by rw [heval], by rw [heval], by rw [heval], ?_⟩
  intro parse fm rand fc
  have hfe : fetchChanges [rec1] 1 = [] := by decide
  rcases checkForChanges_cases parse fm rand fc [rec1] 1 with ⟨_, e⟩ | ⟨h1, _⟩
  · exact e
  · exact absurd hfe h1

/-- C3 counterexample: the snapshot fetch is asynchronous — in the run
"connect 1, broadcast an event, snapshot resolves", connection 1 receives
the live change event before its `INITIAL_DATA` message, contradicting
"the snapshot is sent before any live change event reaches that
connection". -/
theorem c3_event_before_snapshot :
    Server.inbox
        (Server.runS Server.initSrv
          [.connect 1, .publish rec1Event,
           .snapshotDone 1 [sampleOrder] "ts"]) 1 =
      [.change rec1Event, .initialData [sampleOrder] "ts"] := by decide

/-- C3 (amended): the connection is registered in the tracked client set in
the same synchronous step that starts the snapshot fetch (registration no
later than the fetch begins), and along every run, every event published
after a connection's connect step is delivered to that connection — though
possibly before its `INITIAL_DATA` message arrives. -/
theorem c3_registration_before_snapshot :
    (∀ (s : Server.SrvState) (c : Nat),
        c ∈ (Server.stepS s (.connect c)).clients ∧
        c ∈ (Server.stepS s (.connect c)).pending) ∧
    (∀ (pre mid : List Server.SEvent) (c : Nat) (e : ChangeData),
        (c, Server.WireMsg.change e) ∈
          (Server.runS
            (Server.stepS (Server.runS Server.initSrv pre) (.connect c))
            (mid ++ [Server.SEvent.publish e])).log) := by
  constructor
  · intro s c
    constructor <;> simp [Server.stepS]
  · intro pre mid c e
    rw [Server.runS_append]
    have hc : c ∈ (Server.stepS (Server.runS Server.initSrv pre)
        (.connect c)).clients := by
      simp [Server.stepS]
    have hc2 : c ∈ (Server.runS
        (Server.stepS (Server.runS Server.initSrv pre) (.connect c))
        mid).clients :=
      Server.clients_mono _ mid hc
    show (c, Server.WireMsg.change e) ∈
      (Server.stepS _ (.publish e)).log
    exact List.mem_append.mpr (Or.inr (List.mem_map.mpr ⟨c, hc2, rfl⟩))
